import Mathlib

/-!
Shallow embedding of the CTAP HID packet codec (`src/packet.rs`).

Bytes are modelled as `Nat` (byte-valued by construction); the fixed 65-byte
frame buffers are `List Nat`.  Rust operations that can panic — slice-range
`copy_from_slice` and single-index assignment — are modelled as
`Option`-returning functions that yield `none` exactly when the Rust code
would panic, so totality claims are statable.
-/

/-- The frame-type marker bit, `static FRAME_INIT: u8 = 0x80`. -/
def FRAME_INIT : Nat := 0x80

/-- The `CtapCommand` enum of `src/packet.rs`. -/
inductive CtapCommand where
  | Invalid
  | Ping
  | Msg
  | Lock
  | Init
  | Wink
  | Cbor
  | Cancel
  | Keepalive
  | Error
deriving DecidableEq

/-- Derived `ToPrimitive::to_u8`: each variant maps to its `repr(u8)`
discriminant; for a fieldless enum this never returns `None`. -/
def CtapCommand.to_u8 : CtapCommand → Option Nat
  | .Invalid => some 0x00
  | .Ping => some 0x01
  | .Msg => some 0x03
  | .Lock => some 0x04
  | .Init => some 0x06
  | .Wink => some 0x08
  | .Cbor => some 0x10
  | .Cancel => some 0x11
  | .Keepalive => some 0x3b
  | .Error => some 0x3f

/-- `CtapCommand::to_wire_format`: `to_u8`, with `None` coerced to `0x00`. -/
def CtapCommand.to_wire_format (c : CtapCommand) : Nat :=
  match c.to_u8 with
  | some x => x
  | none => 0x00

/-- Derived `FromPrimitive::from_u8`: partial inverse of the discriminant
mapping; bytes that are not a discriminant of any variant yield `none`. -/
def CtapCommand.from_u8 : Nat → Option CtapCommand
  | 0x00 => some .Invalid
  | 0x01 => some .Ping
  | 0x03 => some .Msg
  | 0x04 => some .Lock
  | 0x06 => some .Init
  | 0x08 => some .Wink
  | 0x10 => some .Cbor
  | 0x11 => some .Cancel
  | 0x3b => some .Keepalive
  | 0x3f => some .Error
  | _ => none

/-- Models Rust `buf[lo..hi].copy_from_slice(src)` on a slice of `buf`:
`none` (a panic) when the range is out of bounds, inverted, or the source
length differs from the range length. -/
def copy_from_slice (buf : List Nat) (lo hi : Nat) (src : List Nat) :
    Option (List Nat) :=
  if lo ≤ hi ∧ hi ≤ buf.length ∧ src.length = hi - lo then
    some (buf.take lo ++ src ++ buf.drop hi)
  else none

/-- Models Rust `buf[i] = v`: `none` (a panic) when `i` is out of bounds. -/
def write_at (buf : List Nat) (i v : Nat) : Option (List Nat) :=
  if i < buf.length then some (buf.set i v) else none

/-- `InitPacket(pub [u8; 65])`. -/
structure InitPacket where
  buf : List Nat
deriving DecidableEq

/-- `InitPacket::new(cid, cmd, size, payload)`, with `size` a `u16` value. -/
def InitPacket.new (cid : List Nat) (cmd : CtapCommand) (size : Nat)
    (payload : List Nat) : Option InitPacket := do
  let b0 := List.replicate 65 0
  let b1 ← copy_from_slice b0 1 5 cid
  let b2 ← write_at b1 5 (FRAME_INIT ||| cmd.to_wire_format)
  let b3 ← write_at b2 6 ((size >>> 8) &&& 0xff)
  let b4 ← write_at b3 7 (size &&& 0xff)
  let b5 ← copy_from_slice b4 8 (payload.length + 8) payload
  pure ⟨b5⟩

/-- `InitPacket::cid`: `&self.0[1..5]`. -/
def InitPacket.cid (p : InitPacket) : List Nat :=
  (p.buf.drop 1).take 4

/-- `InitPacket::cmd`: decode `self.0[5] ^ FRAME_INIT`, unknown bytes
falling back to `Invalid`. -/
def InitPacket.cmd (p : InitPacket) : CtapCommand :=
  match CtapCommand.from_u8 ((p.buf.getD 5 0) ^^^ FRAME_INIT) with
  | some cmd => cmd
  | none => .Invalid

/-- `InitPacket::size`: `(u16::from(self.0[6]) << 8) | u16::from(self.0[7])`. -/
def InitPacket.size (p : InitPacket) : Nat :=
  ((p.buf.getD 6 0) <<< 8) ||| (p.buf.getD 7 0)

/-- `InitPacket::payload`: `&self.0[8..65]`. -/
def InitPacket.payload (p : InitPacket) : List Nat :=
  (p.buf.drop 8).take 57

/-- `<InitPacket as Packet>::from_wire_format(data)`. -/
def InitPacket.from_wire_format (data : List Nat) : Option InitPacket := do
  let b ← copy_from_slice (List.replicate 65 0) 1 65 data
  pure ⟨b⟩

/-- `<InitPacket as Packet>::to_wire_format`: the whole 65-byte buffer. -/
def InitPacket.to_wire_format (p : InitPacket) : List Nat :=
  p.buf

/-- `ContPacket(pub [u8; 65])`. -/
structure ContPacket where
  buf : List Nat
deriving DecidableEq

/-- `ContPacket::new(cid, seq, payload)`, with `seq` a `u8` value. -/
def ContPacket.new (cid : List Nat) (seq : Nat) (payload : List Nat) :
    Option ContPacket := do
  let b0 := List.replicate 65 0
  let b1 ← copy_from_slice b0 1 5 cid
  let b2 ← write_at b1 5 seq
  let b3 ← copy_from_slice b2 6 (payload.length + 6) payload
  pure ⟨b3⟩

/-- `ContPacket::cid`: `&self.0[1..5]`. -/
def ContPacket.cid (p : ContPacket) : List Nat :=
  (p.buf.drop 1).take 4

/-- `ContPacket::seq`: `self.0[5]`, raw. -/
def ContPacket.seq (p : ContPacket) : Nat :=
  p.buf.getD 5 0

/-- `ContPacket::payload`: `&self.0[6..65]`. -/
def ContPacket.payload (p : ContPacket) : List Nat :=
  (p.buf.drop 6).take 59

/-- `<ContPacket as Packet>::from_wire_format(data)`. -/
def ContPacket.from_wire_format (data : List Nat) : Option ContPacket := do
  let b ← copy_from_slice (List.replicate 65 0) 1 65 data
  pure ⟨b⟩

/-- `<ContPacket as Packet>::to_wire_format`: the whole 65-byte buffer. -/
def ContPacket.to_wire_format (p : ContPacket) : List Nat :=
  p.buf

/-- A list of length 4 is literally a four-element list. -/
theorem list_length_four {l : List Nat} (h : l.length = 4) :
    ∃ a b c d, l = [a, b, c, d] := by
  match l with
  | [a, b, c, d] => exact ⟨a, b, c, d, rfl⟩
  | [] | [_] | [_, _] | [_, _, _] => simp at h
  | _ :: _ :: _ :: _ :: _ :: _ => simp at h

/-- Closed form of `InitPacket::new` under its preconditions. -/
theorem init_new_eq (cid : List Nat) (cmd : CtapCommand) (size : Nat)
    (payload : List Nat) (hcid : cid.length = 4) (hpay : payload.length ≤ 57) :
    InitPacket.new cid cmd size payload =
      some ⟨[0] ++ cid ++
        [FRAME_INIT ||| cmd.to_wire_format, (size >>> 8) &&& 0xff,
          size &&& 0xff] ++ payload ++
        List.replicate (57 - payload.length) 0⟩ := by
  obtain ⟨a, b, c, d, rfl⟩ := list_length_four hcid
  have h8 : payload.length + 8 ≤ 65 := by omega
  have h0 : payload.length = payload.length + 8 - 8 := by omega
  have e60 : List.replicate 60 (0 : Nat) = 0 :: List.replicate 59 0 := rfl
  have e59 : List.replicate 59 (0 : Nat) = 0 :: List.replicate 58 0 := rfl
  have e58 : List.replicate 58 (0 : Nat) = 0 :: List.replicate 57 0 := rfl
  simp [-List.reduceReplicate, InitPacket.new, copy_from_slice, write_at,
    h8, ← h0, e60, e59, e58]

/-- Closed form of `ContPacket::new` under its preconditions. -/
theorem cont_new_eq (cid : List Nat) (seq : Nat) (payload : List Nat)
    (hcid : cid.length = 4) (hpay : payload.length ≤ 59) :
    ContPacket.new cid seq payload =
      some ⟨[0] ++ cid ++ [seq] ++ payload ++
        List.replicate (59 - payload.length) 0⟩ := by
  obtain ⟨a, b, c, d, rfl⟩ := list_length_four hcid
  have h6 : payload.length + 6 ≤ 65 := by omega
  have h0 : payload.length = payload.length + 6 - 6 := by omega
  have e60 : List.replicate 60 (0 : Nat) = 0 :: List.replicate 59 0 := rfl
  simp [-List.reduceReplicate, ContPacket.new, copy_from_slice, write_at,
    h6, ← h0, e60]

/-- Closed form of `InitPacket::from_wire_format` on 64-byte input. -/
theorem init_from_wire_eq (data : List Nat) (hlen : data.length = 64) :
    InitPacket.from_wire_format data = some ⟨0 :: data⟩ := by
  simp [-List.reduceReplicate, InitPacket.from_wire_format, copy_from_slice,
    hlen]

/-- Closed form of `ContPacket::from_wire_format` on 64-byte input. -/
theorem cont_from_wire_eq (data : List Nat) (hlen : data.length = 64) :
    ContPacket.from_wire_format data = some ⟨0 :: data⟩ := by
  simp [-List.reduceReplicate, ContPacket.from_wire_format, copy_from_slice,
    hlen]

/-- Big-endian split/reassembly of a `u16` is the identity. -/
theorem size_bytes_roundtrip (s : Nat) (hs : s < 65536) :
    ((((s >>> 8) &&& 0xff) <<< 8) ||| (s &&& 0xff)) = s := by
  have hff : (0xff : Nat) = 2 ^ 8 - 1 := rfl
  rw [hff, Nat.and_pow_two_sub_one_eq_mod, Nat.and_pow_two_sub_one_eq_mod,
    Nat.shiftRight_eq_div_pow, Nat.shiftLeft_eq]
  have hdiv : s / 2 ^ 8 % 2 ^ 8 = s / 2 ^ 8 := by
    apply Nat.mod_eq_of_lt
    omega
  rw [hdiv, Nat.mul_comm,
    ← Nat.mul_add_lt_is_or (Nat.mod_lt s (by norm_num)) (s / 2 ^ 8)]
  exact Nat.div_add_mod s (2 ^ 8)

set_option maxRecDepth 4096

/-- XOR with the frame bit agrees with masking the bit off when the bit is
set in a byte. -/
theorem xor_frame_bit_of_high (b : Nat) (hb : b < 256)
    (hhigh : b &&& 0x80 = 0x80) : b ^^^ 0x80 = b &&& 0x7f := by
  revert hhigh
  revert hb
  revert b
  decide

/-- A sequence number below 128 has a clear high bit. -/
theorem seq_high_bit_clear (s : Nat) (hs : s < 128) : s &&& 0x80 = 0 := by
  revert hs
  revert s
  decide

/-- `InitPacket::cmd` on an explicit buffer reads byte 5 and decodes it
after XOR with the frame bit, unknown bytes falling back to `Invalid`. -/
theorem InitPacket.cmd_cons (x a b c d v hi lo : Nat) (rest : List Nat) :
    InitPacket.cmd ⟨x :: a :: b :: c :: d :: v :: hi :: lo :: rest⟩
      = (CtapCommand.from_u8 (v ^^^ FRAME_INIT)).getD CtapCommand.Invalid := by
  show (match CtapCommand.from_u8 (v ^^^ FRAME_INIT) with
    | some cmd => cmd
    | none => CtapCommand.Invalid) = _
  cases CtapCommand.from_u8 (v ^^^ FRAME_INIT) <;> rfl

/-- Decoding the wire byte of any command, after stripping the frame bit the
way `InitPacket::cmd` does, recovers that command. -/
theorem cmd_wire_roundtrip (cmd : CtapCommand) :
    (CtapCommand.from_u8
      ((FRAME_INIT ||| cmd.to_wire_format) ^^^ FRAME_INIT)).getD
        CtapCommand.Invalid = cmd := by
  cases cmd <;> rfl

/-- Claim C1: for every 4-byte cid, command, `u16` size and payload of at
most 57 bytes, decoding bytes 1..65 of the encoded `InitPacket` yields a
packet whose `cid`, `cmd` and `size` equal the inputs and whose `payload` is
the input payload zero-padded to 57 bytes. -/
theorem C1_init_roundtrip (cid : List Nat) (cmd : CtapCommand) (size : Nat)
    (payload : List Nat) (hcid : cid.length = 4) (hsize : size < 65536)
    (hpay : payload.length ≤ 57) :
    ∃ p q, InitPacket.new cid cmd size payload = some p ∧
      InitPacket.from_wire_format ((InitPacket.to_wire_format p).drop 1)
        = some q ∧
      q.cid = cid ∧ q.cmd = cmd ∧ q.size = size ∧
      q.payload = payload ++ List.replicate (57 - payload.length) 0 := by
  obtain ⟨a, b, c, d, rfl⟩ := list_length_four hcid
  have hnew := init_new_eq [a, b, c, d] cmd size payload rfl hpay
  simp only [List.cons_append, List.nil_append] at hnew
  have h57 : (payload ++ List.replicate (57 - payload.length) 0).length = 57 := by
    simp only [List.length_append, List.length_replicate]
    omega
  refine ⟨⟨0 :: a :: b :: c :: d :: (FRAME_INIT ||| cmd.to_wire_format) ::
      ((size >>> 8) &&& 0xff) :: (size &&& 0xff) ::
      (payload ++ List.replicate (57 - payload.length) 0)⟩,
    ⟨0 :: a :: b :: c :: d :: (FRAME_INIT ||| cmd.to_wire_format) ::
      ((size >>> 8) &&& 0xff) :: (size &&& 0xff) ::
      (payload ++ List.replicate (57 - payload.length) 0)⟩,
    hnew, ?_, ?_, ?_, ?_, ?_⟩
  · show InitPacket.from_wire_format
        (a :: b :: c :: d :: (FRAME_INIT ||| cmd.to_wire_format) ::
          ((size >>> 8) &&& 0xff) :: (size &&& 0xff) ::
          (payload ++ List.replicate (57 - payload.length) 0)) = _
    exact init_from_wire_eq _ (by simp only [List.length_cons, h57])
  · rfl
  · rw [InitPacket.cmd_cons]
    exact cmd_wire_roundtrip cmd
  · exact size_bytes_roundtrip size hsize
  · show (payload ++ List.replicate (57 - payload.length) 0).take 57 = _
    exact List.take_of_length_le (Nat.le_of_eq h57)

/-- Witness for C1 at cid 11 22 33 44, command Ping, size 1, payload AA. -/
theorem C1_init_roundtrip_witness :
    ([0x11, 0x22, 0x33, 0x44] : List Nat).length = 4 ∧ (1 : Nat) < 65536 ∧
    ([0xAA] : List Nat).length ≤ 57 ∧
    (∃ p q, InitPacket.new [0x11, 0x22, 0x33, 0x44] .Ping 1 [0xAA] = some p ∧
      InitPacket.from_wire_format ((InitPacket.to_wire_format p).drop 1)
        = some q ∧
      q.cid = [0x11, 0x22, 0x33, 0x44] ∧ q.cmd = .Ping ∧ q.size = 1 ∧
      q.payload = [0xAA] ++ List.replicate (57 - ([0xAA] : List Nat).length) 0) :=
  ⟨by decide, by decide, by decide,
    C1_init_roundtrip [0x11, 0x22, 0x33, 0x44] .Ping 1 [0xAA]
      (by decide) (by decide) (by decide)⟩

/-- Claim C2: for every 4-byte cid, sequence number at most 127 and payload
of at most 59 bytes, decoding bytes 1..65 of the encoded `ContPacket` yields
a packet whose `cid` and `seq` equal the inputs and whose `payload` is the
input payload zero-padded to 59 bytes. -/
theorem C2_cont_roundtrip (cid : List Nat) (seq : Nat) (payload : List Nat)
    (hcid : cid.length = 4) (hseq : seq ≤ 127) (hpay : payload.length ≤ 59) :
    ∃ p q, ContPacket.new cid seq payload = some p ∧
      ContPacket.from_wire_format ((ContPacket.to_wire_format p).drop 1)
        = some q ∧
      q.cid = cid ∧ q.seq = seq ∧
      q.payload = payload ++ List.replicate (59 - payload.length) 0 := by
  obtain ⟨a, b, c, d, rfl⟩ := list_length_four hcid
  have hnew := cont_new_eq [a, b, c, d] seq payload rfl hpay
  simp only [List.cons_append, List.nil_append] at hnew
  have h59 : (payload ++ List.replicate (59 - payload.length) 0).length = 59 := by
    simp only [List.length_append, List.length_replicate]
    omega
  refine ⟨⟨0 :: a :: b :: c :: d :: seq ::
      (payload ++ List.replicate (59 - payload.length) 0)⟩,
    ⟨0 :: a :: b :: c :: d :: seq ::
      (payload ++ List.replicate (59 - payload.length) 0)⟩,
    hnew, ?_, ?_, ?_, ?_⟩
  · show ContPacket.from_wire_format (a :: b :: c :: d :: seq ::
        (payload ++ List.replicate (59 - payload.length) 0)) = _
    exact cont_from_wire_eq _ (by simp only [List.length_cons, h59])
  · rfl
  · rfl
  · show (payload ++ List.replicate (59 - payload.length) 0).take 59 = _
    exact List.take_of_length_le (Nat.le_of_eq h59)

/-- `InitPacket::cmd` of any packet, written with `Option.getD`. -/
theorem InitPacket.cmd_getD (p : InitPacket) :
    p.cmd = (CtapCommand.from_u8 ((p.buf.getD 5 0) ^^^ FRAME_INIT)).getD
      CtapCommand.Invalid := by
  unfold InitPacket.cmd
  cases CtapCommand.from_u8 ((p.buf.getD 5 0) ^^^ FRAME_INIT) <;> rfl

/-- Claim C3: byte 5 of the wire buffer of any `InitPacket` built by `new`
has the 0x80 bit set; byte 5 of the wire buffer of any `ContPacket` built by
`new` with seq at most 127 has the 0x80 bit clear. -/
theorem C3_frame_bit (cid : List Nat) (cmd : CtapCommand) (size : Nat)
    (ipay cpay : List Nat) (seq : Nat) (hcid : cid.length = 4)
    (hipay : ipay.length ≤ 57) (hseq : seq ≤ 127) (hcpay : cpay.length ≤ 59) :
    (∃ p, InitPacket.new cid cmd size ipay = some p ∧
      ((InitPacket.to_wire_format p).getD 5 0) &&& 0x80 = 0x80) ∧
    (∃ p, ContPacket.new cid seq cpay = some p ∧
      ((ContPacket.to_wire_format p).getD 5 0) &&& 0x80 = 0) := by
  obtain ⟨a, b, c, d, rfl⟩ := list_length_four hcid
  constructor
  · refine ⟨_, init_new_eq [a, b, c, d] cmd size ipay rfl hipay, ?_⟩
    simp only [InitPacket.to_wire_format, List.cons_append, List.nil_append,
      List.getD_cons_succ, List.getD_cons_zero]
    cases cmd <;> rfl
  · refine ⟨_, cont_new_eq [a, b, c, d] seq cpay rfl hcpay, ?_⟩
    simp only [ContPacket.to_wire_format, List.cons_append, List.nil_append,
      List.getD_cons_succ, List.getD_cons_zero]
    exact seq_high_bit_clear seq (by omega)

/-- Witness for C3 at cid 11 22 33 44, command Msg, size 300, seq 5. -/
theorem C3_frame_bit_witness :
    ([0x11, 0x22, 0x33, 0x44] : List Nat).length = 4 ∧
    ([0xAA] : List Nat).length ≤ 57 ∧ (5 : Nat) ≤ 127 ∧
    ([0xBB] : List Nat).length ≤ 59 ∧
    ((∃ p, InitPacket.new [0x11, 0x22, 0x33, 0x44] .Msg 300 [0xAA] = some p ∧
      ((InitPacket.to_wire_format p).getD 5 0) &&& 0x80 = 0x80) ∧
    (∃ p, ContPacket.new [0x11, 0x22, 0x33, 0x44] 5 [0xBB] = some p ∧
      ((ContPacket.to_wire_format p).getD 5 0) &&& 0x80 = 0)) :=
  ⟨by decide, by decide, by decide, by decide,
    C3_frame_bit [0x11, 0x22, 0x33, 0x44] .Msg 300 [0xAA] [0xBB] 5
      (by decide) (by decide) (by decide) (by decide)⟩

/-- Claim C4: every `CtapCommand` variant encodes to its documented fixed
wire byte, and decoding that byte recovers the same variant. -/
theorem C4_cmd_mapping :
    (CtapCommand.Invalid.to_wire_format = 0x00 ∧
      CtapCommand.Ping.to_wire_format = 0x01 ∧
      CtapCommand.Msg.to_wire_format = 0x03 ∧
      CtapCommand.Lock.to_wire_format = 0x04 ∧
      CtapCommand.Init.to_wire_format = 0x06 ∧
      CtapCommand.Wink.to_wire_format = 0x08 ∧
      CtapCommand.Cbor.to_wire_format = 0x10 ∧
      CtapCommand.Cancel.to_wire_format = 0x11 ∧
      CtapCommand.Keepalive.to_wire_format = 0x3b ∧
      CtapCommand.Error.to_wire_format = 0x3f) ∧
    ∀ cmd : CtapCommand, CtapCommand.from_u8 cmd.to_wire_format = some cmd := by
  constructor
  · decide
  · intro cmd
    cases cmd <;> rfl

/-- Claim C5 counterexample: on the 64-byte input whose byte at index 4 is
0x01 (high bit clear), `cmd()` returns `Invalid`, while decoding that byte
with the 0x80 bit masked off yields `Ping`; the description of `cmd()` as a
masked decode fails at this input. -/
theorem C5_cmd_mask_counterexample :
    (InitPacket.from_wire_format
        (List.replicate 4 0 ++ 0x01 :: List.replicate 59 0)).map
      InitPacket.cmd = some CtapCommand.Invalid ∧
    (CtapCommand.from_u8
        (((List.replicate 4 0 ++ 0x01 :: List.replicate 59 0).getD 4 0) &&&
          0x7f)).getD CtapCommand.Invalid = CtapCommand.Ping ∧
    (InitPacket.from_wire_format
        (List.replicate 4 0 ++ 0x01 :: List.replicate 59 0)).map
      InitPacket.cmd ≠
      some ((CtapCommand.from_u8
        (((List.replicate 4 0 ++ 0x01 :: List.replicate 59 0).getD 4 0) &&&
          0x7f)).getD CtapCommand.Invalid) := by decide

/-- Claim C5 amended: for every 64-byte input whose byte at index 4 has the
0x80 bit set (the well-formed init-frame case), `cmd()` equals that byte
with the 0x80 bit masked off, decoded through the partial mapping with
unknown bytes reading back as `Invalid`.  (The code XORs the frame bit, so
on bytes with the high bit clear the decode instead sees the bit set and
yields `Invalid`.) -/
theorem C5_cmd_decode (data : List Nat) (hlen : data.length = 64)
    (hbyte : data.getD 4 0 < 256)
    (hhigh : (data.getD 4 0) &&& 0x80 = 0x80) :
    ∃ p, InitPacket.from_wire_format data = some p ∧
      p.cmd = (CtapCommand.from_u8 ((data.getD 4 0) &&& 0x7f)).getD
        CtapCommand.Invalid := by
  refine ⟨_, init_from_wire_eq data hlen, ?_⟩
  rw [InitPacket.cmd_getD]
  simp only [List.getD_cons_succ, FRAME_INIT]
  rw [xor_frame_bit_of_high _ hbyte hhigh]

/-- Witness for C5 amended on data whose byte 4 is 0x81. -/
theorem C5_cmd_decode_witness :
    (List.replicate 4 0 ++ 0x81 :: List.replicate 59 (0 : Nat)).length = 64 ∧
    (List.replicate 4 0 ++ 0x81 :: List.replicate 59 (0 : Nat)).getD 4 0 < 256 ∧
    ((List.replicate 4 0 ++ 0x81 :: List.replicate 59 (0 : Nat)).getD 4 0) &&&
      0x80 = 0x80 ∧
    (∃ p, InitPacket.from_wire_format
        (List.replicate 4 0 ++ 0x81 :: List.replicate 59 0) = some p ∧
      p.cmd = (CtapCommand.from_u8
        (((List.replicate 4 0 ++ 0x81 :: List.replicate 59 0).getD 4 0) &&&
          0x7f)).getD CtapCommand.Invalid) :=
  ⟨by decide, by decide, by decide,
    C5_cmd_decode (List.replicate 4 0 ++ 0x81 :: List.replicate 59 0)
      (by decide) (by decide) (by decide)⟩

/-- Claim C6: every byte that is not one of the ten defined command wire
values decodes to `none` through the partial mapping, so the `cmd()`
fallback resolves it to `Invalid`; in particular an init frame carrying the
undefined command byte 0x7E (byte 5 = 0xFE on the wire) reads back as
`Invalid`. -/
theorem C6_unknown_cmd (b : Nat)
    (hb : b ∉ ([0x00, 0x01, 0x03, 0x04, 0x06, 0x08, 0x10, 0x11, 0x3b, 0x3f] :
      List Nat)) :
    CtapCommand.from_u8 b = none ∧
    (CtapCommand.from_u8 b).getD CtapCommand.Invalid = CtapCommand.Invalid ∧
    (InitPacket.from_wire_format
        (List.replicate 4 0 ++ 0xFE :: List.replicate 59 0)).map
      InitPacket.cmd = some CtapCommand.Invalid := by
  have hnone : CtapCommand.from_u8 b = none := by
    unfold CtapCommand.from_u8
    split <;> simp_all
  refine ⟨hnone, by rw [hnone]; rfl, by decide⟩

/-- Witness for C6 at the undefined command byte 0x7E. -/
theorem C6_unknown_cmd_witness :
    (0x7E : Nat) ∉ ([0x00, 0x01, 0x03, 0x04, 0x06, 0x08, 0x10, 0x11, 0x3b,
      0x3f] : List Nat) ∧
    (CtapCommand.from_u8 0x7E = none ∧
      (CtapCommand.from_u8 0x7E).getD CtapCommand.Invalid =
        CtapCommand.Invalid ∧
      (InitPacket.from_wire_format
          (List.replicate 4 0 ++ 0xFE :: List.replicate 59 0)).map
        InitPacket.cmd = some CtapCommand.Invalid) :=
  ⟨by decide, C6_unknown_cmd 0x7E (by decide)⟩

/-- Claim C7: the documented example init frame serializes byte-exactly:
byte 0 = 0x00, cid bytes 11 22 33 44, byte 5 = 0x81, size bytes 00 01,
payload byte AA, and 56 trailing zero bytes. -/
theorem C7_init_example :
    ∃ p, InitPacket.new [0x11, 0x22, 0x33, 0x44] .Ping 1 [0xAA] = some p ∧
      InitPacket.to_wire_format p
        = [0x00, 0x11, 0x22, 0x33, 0x44, 0x81, 0x00, 0x01, 0xAA] ++
            List.replicate 56 0 ∧
      (InitPacket.to_wire_format p).length = 65 :=
  ⟨⟨[0x00, 0x11, 0x22, 0x33, 0x44, 0x81, 0x00, 0x01, 0xAA] ++
      List.replicate 56 0⟩, by decide, rfl, by decide⟩

/-- Claim C8: the documented example continuation frame serializes
byte-exactly: byte 0 = 0x00, cid bytes 11 22 33 44, byte 5 = 0x03, payload
bytes BB CC, and 57 trailing zero bytes. -/
theorem C8_cont_example :
    ∃ p, ContPacket.new [0x11, 0x22, 0x33, 0x44] 3 [0xBB, 0xCC] = some p ∧
      ContPacket.to_wire_format p
        = [0x00, 0x11, 0x22, 0x33, 0x44, 0x03, 0xBB, 0xCC] ++
            List.replicate 57 0 ∧
      (ContPacket.to_wire_format p).length = 65 :=
  ⟨⟨[0x00, 0x11, 0x22, 0x33, 0x44, 0x03, 0xBB, 0xCC] ++
      List.replicate 57 0⟩, by decide, rfl, by decide⟩

/-- Witness for C2 at cid 11 22 33 44, seq 3, payload BB CC. -/
theorem C2_cont_roundtrip_witness :
    ([0x11, 0x22, 0x33, 0x44] : List Nat).length = 4 ∧ (3 : Nat) ≤ 127 ∧
    ([0xBB, 0xCC] : List Nat).length ≤ 59 ∧
    (∃ p q, ContPacket.new [0x11, 0x22, 0x33, 0x44] 3 [0xBB, 0xCC] = some p ∧
      ContPacket.from_wire_format ((ContPacket.to_wire_format p).drop 1)
        = some q ∧
      q.cid = [0x11, 0x22, 0x33, 0x44] ∧ q.seq = 3 ∧
      q.payload = [0xBB, 0xCC] ++
        List.replicate (59 - ([0xBB, 0xCC] : List Nat).length) 0) :=
  ⟨by decide, by decide, by decide,
    C2_cont_roundtrip [0x11, 0x22, 0x33, 0x44] 3 [0xBB, 0xCC]
      (by decide) (by decide) (by decide)⟩

/-- Claim C9: every packet obtained from `new` under its preconditions, or
from `from_wire_format` on a 64-byte input, serializes via
`to_wire_format` to a buffer of exactly 65 bytes whose byte 0 is 0x00. -/
theorem C9_wire_shape (cid : List Nat) (cmd : CtapCommand) (size seq : Nat)
    (ipay cpay data : List Nat) (hcid : cid.length = 4)
    (hipay : ipay.length ≤ 57) (hcpay : cpay.length ≤ 59)
    (hdata : data.length = 64) :
    (∃ p, InitPacket.new cid cmd size ipay = some p ∧
      (InitPacket.to_wire_format p).length = 65 ∧
      (InitPacket.to_wire_format p).getD 0 1 = 0) ∧
    (∃ p, ContPacket.new cid seq cpay = some p ∧
      (ContPacket.to_wire_format p).length = 65 ∧
      (ContPacket.to_wire_format p).getD 0 1 = 0) ∧
    (∃ p, InitPacket.from_wire_format data = some p ∧
      (InitPacket.to_wire_format p).length = 65 ∧
      (InitPacket.to_wire_format p).getD 0 1 = 0) ∧
    (∃ p, ContPacket.from_wire_format data = some p ∧
      (ContPacket.to_wire_format p).length = 65 ∧
      (ContPacket.to_wire_format p).getD 0 1 = 0) := by
  obtain ⟨a, b, c, d, rfl⟩ := list_length_four hcid
  refine ⟨⟨_, init_new_eq [a, b, c, d] cmd size ipay rfl hipay,
      ?_, ?_⟩,
    ⟨_, cont_new_eq [a, b, c, d] seq cpay rfl hcpay, ?_, ?_⟩,
    ⟨_, init_from_wire_eq data hdata, ?_, ?_⟩,
    ⟨_, cont_from_wire_eq data hdata, ?_, ?_⟩⟩
  · simp only [InitPacket.to_wire_format, List.length_append,
      List.length_cons, List.length_nil, List.length_replicate]
    omega
  · rfl
  · simp only [ContPacket.to_wire_format, List.length_append,
      List.length_cons, List.length_nil, List.length_replicate]
    omega
  · rfl
  · simp only [InitPacket.to_wire_format, List.length_cons, hdata]
  · rfl
  · simp only [ContPacket.to_wire_format, List.length_cons, hdata]
  · rfl

/-- Witness for C9 at cid 11 22 33 44 and an all-zero 64-byte input. -/
theorem C9_wire_shape_witness :
    ([0x11, 0x22, 0x33, 0x44] : List Nat).length = 4 ∧
    ([0xAA] : List Nat).length ≤ 57 ∧ ([0xBB] : List Nat).length ≤ 59 ∧
    (List.replicate 64 (0 : Nat)).length = 64 ∧
    ((∃ p, InitPacket.new [0x11, 0x22, 0x33, 0x44] .Cbor 2 [0xAA] = some p ∧
      (InitPacket.to_wire_format p).length = 65 ∧
      (InitPacket.to_wire_format p).getD 0 1 = 0) ∧
    (∃ p, ContPacket.new [0x11, 0x22, 0x33, 0x44] 7 [0xBB] = some p ∧
      (ContPacket.to_wire_format p).length = 65 ∧
      (ContPacket.to_wire_format p).getD 0 1 = 0) ∧
    (∃ p, InitPacket.from_wire_format (List.replicate 64 0) = some p ∧
      (InitPacket.to_wire_format p).length = 65 ∧
      (InitPacket.to_wire_format p).getD 0 1 = 0) ∧
    (∃ p, ContPacket.from_wire_format (List.replicate 64 0) = some p ∧
      (ContPacket.to_wire_format p).length = 65 ∧
      (ContPacket.to_wire_format p).getD 0 1 = 0)) :=
  ⟨by decide, by decide, by decide, by decide,
    C9_wire_shape [0x11, 0x22, 0x33, 0x44] .Cbor 2 7 [0xAA] [0xBB]
      (List.replicate 64 0) (by decide) (by decide) (by decide) (by decide)⟩

/-- Claim C10: under the stated preconditions — 4-byte cid, payload at most
57 bytes for `InitPacket::new` and at most 59 for `ContPacket::new`, exactly
64 bytes of data for `from_wire_format` — every modelled slice operation is
in bounds, so each constructor and decoder returns a packet instead of
reaching the panic branch. -/
theorem C10_totality (cid : List Nat) (cmd : CtapCommand) (size seq : Nat)
    (ipay cpay data : List Nat) (hcid : cid.length = 4)
    (hipay : ipay.length ≤ 57) (hcpay : cpay.length ≤ 59)
    (hdata : data.length = 64) :
    (InitPacket.new cid cmd size ipay).isSome = true ∧
    (ContPacket.new cid seq cpay).isSome = true ∧
    (InitPacket.from_wire_format data).isSome = true ∧
    (ContPacket.from_wire_format data).isSome = true := by
  obtain ⟨a, b, c, d, rfl⟩ := list_length_four hcid
  refine ⟨?_, ?_, ?_, ?_⟩
  · rw [init_new_eq [a, b, c, d] cmd size ipay rfl hipay]
    rfl
  · rw [cont_new_eq [a, b, c, d] seq cpay rfl hcpay]
    rfl
  · rw [init_from_wire_eq data hdata]
    rfl
  · rw [cont_from_wire_eq data hdata]
    rfl

/-- Witness for C10 at cid 01 02 03 04 and an all-zero 64-byte input. -/
theorem C10_totality_witness :
    ([0x01, 0x02, 0x03, 0x04] : List Nat).length = 4 ∧
    ([] : List Nat).length ≤ 57 ∧ ([0xCC] : List Nat).length ≤ 59 ∧
    (List.replicate 64 (0 : Nat)).length = 64 ∧
    ((InitPacket.new [0x01, 0x02, 0x03, 0x04] .Wink 0 []).isSome = true ∧
      (ContPacket.new [0x01, 0x02, 0x03, 0x04] 0 [0xCC]).isSome = true ∧
      (InitPacket.from_wire_format (List.replicate 64 0)).isSome = true ∧
      (ContPacket.from_wire_format (List.replicate 64 0)).isSome = true) :=
  ⟨by decide, by decide, by decide, by decide,
    C10_totality [0x01, 0x02, 0x03, 0x04] .Wink 0 0 [] [0xCC]
      (List.replicate 64 0) (by decide) (by decide) (by decide) (by decide)⟩
